import Mathlib

/-!
Verification of the CipherChat end-to-end encryption core.

This file shallowly embeds the JavaScript sources of the repository:

* `client/utils/crypto.js` — ECDH (P-256) → HKDF-SHA256 → AES-GCM(256)
  helpers (`deriveAesKeyFromECDH`, `encryptAesGcmBase64`,
  `decryptAesGcmBase64`, `arrayBufferToBase64`, `base64ToArrayBuffer`,
  `compareUint8Arrays`, `concatUint8`);
* `script.js` — the variant crypto helpers `deriveAESGCMKey` / `deriveAES`
  that derive an AES-GCM key directly from ECDH;
* the client glue (`deriveSharedKeyIfReady`) with its own copy of the
  derivation using the context label "ECDH AES-GCM key";
* `server/server.js` and the two unnamed relay variants — WebSocket relay
  message handlers;
* `identity.sol` / `blockchain/keyregistry.js` — the on-chain key registry
  (`registerKey`, `getKey`) and the client check `verifyOnChainKey`.

Modelling conventions:

* JavaScript byte buffers (`Uint8Array` / `ArrayBuffer`) are `List Nat`
  together with a validity predicate (`every byte < 256`); JavaScript
  strings are `List Char` where character-level structure matters
  (base64 text) and `String` where they are opaque payloads.
* The Web Crypto API (`crypto.subtle`) is an external platform, not code
  of this repository: its primitives are the fields of a `WebCrypto`
  structure, and platform guarantees used by a theorem (AES-GCM round
  trip, ECDH agreement, UTF-8 round trip) appear as explicit hypotheses
  at the exact instances the repository code relies on.
  `crypto.subtle.deriveKey` with an ECDH algorithm is, per its
  specification, importing the raw ECDH bits as the derived key, which
  the model renders as `importAesKeyRaw` composed with `deriveBitsECDH`.
* Randomness (`crypto.getRandomValues`) is an explicit input: the random
  IV drawn inside `encryptAesGcmBase64` becomes a parameter.
* Fallible operations (AEAD decryption, JSON parsing) return `Option`.
-/

/-- JavaScript byte buffers: a list of byte values. -/
abbrev Bytes := List Nat

/-- Every entry of the buffer is an actual byte (`Uint8Array` contents). -/
def ValidBytes (b : Bytes) : Prop := ∀ x ∈ b, x < 256

instance (b : Bytes) : Decidable (ValidBytes b) := by
  unfold ValidBytes; infer_instance

/-! ### Base64 (`btoa` / `atob`, as used by the repository's helpers)

`arrayBufferToBase64` is `btoa(String.fromCharCode(...new Uint8Array(buf)))`
and `base64ToArrayBuffer` is `atob` followed by reading `charCodeAt` of
every position (crypto.js lines 137–146, and the identical pair in the
client glue).  `String.fromCharCode`/`charCodeAt` mediate between byte
values and characters; `btoa`/`atob` are standard base64 over the
latin-1 code units of their argument. -/

/-- The base64 digit for a sextet value, following the standard alphabet
`A–Z a–z 0–9 + /`. -/
def b64Digit (s : Nat) : Char :=
  if s < 26 then Char.ofNat (65 + s)
  else if s < 52 then Char.ofNat (97 + (s - 26))
  else if s < 62 then Char.ofNat (48 + (s - 52))
  else if s = 62 then '+'
  else '/'

/-- The sextet value of a base64 digit (inverse of `b64Digit`). -/
def b64Value (c : Char) : Nat :=
  let n := c.toNat
  if 65 ≤ n ∧ n ≤ 90 then n - 65
  else if 97 ≤ n ∧ n ≤ 122 then n - 97 + 26
  else if 48 ≤ n ∧ n ≤ 57 then n - 48 + 52
  else if c = '+' then 62
  else 63

/-- Base64-encode a byte sequence, three bytes to four digits, padding the
final group with `=`. -/
def encodeB64 : Bytes → List Char
  | [] => []
  | [a] => [b64Digit (a / 4), b64Digit (a % 4 * 16), '=', '=']
  | [a, b] => [b64Digit (a / 4), b64Digit (a % 4 * 16 + b / 16),
               b64Digit (b % 16 * 4), '=']
  | a :: b :: c :: rest =>
      b64Digit (a / 4) :: b64Digit (a % 4 * 16 + b / 16) ::
      b64Digit (b % 16 * 4 + c / 64) :: b64Digit (c % 64) :: encodeB64 rest

/-- Base64-decode, four digits to three bytes, honouring `=` padding in the
final group (the shape `atob` accepts). -/
def decodeB64 : List Char → Bytes
  | c1 :: c2 :: c3 :: c4 :: rest =>
      if c3 = '=' then
        [b64Value c1 * 4 + b64Value c2 / 16]
      else if c4 = '=' then
        [b64Value c1 * 4 + b64Value c2 / 16,
         b64Value c2 % 16 * 16 + b64Value c3 / 4]
      else
        (b64Value c1 * 4 + b64Value c2 / 16) ::
        (b64Value c2 % 16 * 16 + b64Value c3 / 4) ::
        (b64Value c3 % 4 * 64 + b64Value c4) :: decodeB64 rest
  | _ => []

/-- `String.fromCharCode(...bytes)`: one character per byte value. -/
def fromCharCode (b : Bytes) : List Char := b.map Char.ofNat

/-- Reading `charCodeAt(i)` at every position of a string. -/
def charCodesOf (s : List Char) : Bytes := s.map Char.toNat

/-- `btoa`: base64 over the code units of a (latin-1) string. -/
def btoa (s : List Char) : List Char := encodeB64 (charCodesOf s)

/-- `atob`: the binary string whose code units are the decoded bytes. -/
def atob (b64 : List Char) : List Char := fromCharCode (decodeB64 b64)

/-- crypto.js line 137: `btoa(String.fromCharCode(...new Uint8Array(buf)))`. -/
def arrayBufferToBase64 (buf : Bytes) : List Char := btoa (fromCharCode buf)

/-- crypto.js lines 141–146: `atob`, then `charCodeAt` into a `Uint8Array`. -/
def base64ToArrayBuffer (b64 : List Char) : Bytes := charCodesOf (atob b64)

/-! ### Base64 round-trip lemmas -/

theorem b64Value_b64Digit : ∀ s, s < 64 → b64Value (b64Digit s) = s := by
  decide

theorem b64Digit_ne_pad : ∀ s, s < 64 → b64Digit s ≠ '=' := by
  decide

theorem toNat_ofNat_byte {n : Nat} (h : n < 256) : (Char.ofNat n).toNat = n := by
  have hv : Nat.isValidChar n := Or.inl (by omega)
  unfold Char.ofNat
  rw [dif_pos hv]
  rfl

theorem charCodesOf_fromCharCode {b : Bytes} (h : ValidBytes b) :
    charCodesOf (fromCharCode b) = b := by
  induction b with
  | nil => rfl
  | cons x xs ih =>
      have hx : x < 256 := h x (List.mem_cons_self x xs)
      have hxs : ValidBytes xs := fun y hy => h y (List.mem_cons_of_mem x hy)
      simp [charCodesOf, fromCharCode] at ih ⊢
      exact ⟨toNat_ofNat_byte hx, ih hxs⟩

theorem decodeB64_encodeB64 : ∀ b : Bytes, ValidBytes b →
    decodeB64 (encodeB64 b) = b := by
  intro b
  induction b using encodeB64.induct with
  | case1 => intro _; rfl
  | case2 a =>
      intro h
      have ha : a < 256 := h a (by simp)
      have h1 : a / 4 < 64 := by omega
      have h2 : a % 4 * 16 < 64 := by omega
      simp [encodeB64, decodeB64, b64Value_b64Digit _ h1, b64Value_b64Digit _ h2]
      omega
  | case3 a b =>
      intro h
      have ha : a < 256 := h a (by simp)
      have hb : b < 256 := h b (by simp)
      have h1 : a / 4 < 64 := by omega
      have h2 : a % 4 * 16 + b / 16 < 64 := by omega
      have h3 : b % 16 * 4 < 64 := by omega
      simp [encodeB64, decodeB64, b64Digit_ne_pad _ h3,
        b64Value_b64Digit _ h1, b64Value_b64Digit _ h2, b64Value_b64Digit _ h3]
      omega
  | case4 a b c rest ih =>
      intro h
      have ha : a < 256 := h a (by simp)
      have hb : b < 256 := h b (by simp)
      have hc : c < 256 := h c (by simp)
      have hrest : ValidBytes rest := fun y hy => h y (by simp [hy])
      have h1 : a / 4 < 64 := by omega
      have h2 : a % 4 * 16 + b / 16 < 64 := by omega
      have h3 : b % 16 * 4 + c / 64 < 64 := by omega
      have h4 : c % 64 < 64 := by omega
      simp [encodeB64, decodeB64, b64Digit_ne_pad _ h3, b64Digit_ne_pad _ h4,
        b64Value_b64Digit _ h1, b64Value_b64Digit _ h2,
        b64Value_b64Digit _ h3, b64Value_b64Digit _ h4, ih hrest]
      omega

theorem base64_decode_encode {b : Bytes} (h : ValidBytes b) :
    base64ToArrayBuffer (arrayBufferToBase64 b) = b := by
  unfold base64ToArrayBuffer arrayBufferToBase64 btoa atob
  rw [charCodesOf_fromCharCode h, decodeB64_encodeB64 b h,
    charCodesOf_fromCharCode h]

/-! ### Byte-lexicographic comparison (crypto.js lines 148–162)

`compareUint8Arrays` walks the common length comparing bytes and, when one
array is a leading segment of the other, returns the length difference.
`concatUint8` concatenates two buffers.  The client glue's `compareArrays`
and `concatUint8` (unnamed client script) have the identical bodies. -/

/-- crypto.js `compareUint8Arrays`: lexicographic compare returning an
integer with the sign of the first difference, or the length difference. -/
def compareUint8Arrays : Bytes → Bytes → Int
  | x :: xs, y :: ys =>
      if x < y then -1
      else if y < x then 1
      else compareUint8Arrays xs ys
  | xs, ys => (xs.length : Int) - (ys.length : Int)

/-- crypto.js `concatUint8`: a fresh buffer holding `a` then `b`. -/
def concatUint8 (a b : Bytes) : Bytes := a ++ b

theorem compareUint8Arrays_antisymm :
    ∀ a b : Bytes, compareUint8Arrays a b = -compareUint8Arrays b a := by
  intro a
  induction a with
  | nil =>
      intro b
      cases b <;> simp [compareUint8Arrays]
  | cons x xs ih =>
      intro b
      cases b with
      | nil => simp [compareUint8Arrays]
      | cons y ys =>
          by_cases hxy : x < y
          · have hyx : ¬ y < x := by omega
            simp [compareUint8Arrays, hxy, hyx]
          · by_cases hyx : y < x
            · simp [compareUint8Arrays, hxy, hyx]
            · simp [compareUint8Arrays, hxy, hyx, ih ys]

theorem compareUint8Arrays_eq_zero :
    ∀ a b : Bytes, compareUint8Arrays a b = 0 → a = b := by
  intro a
  induction a with
  | nil =>
      intro b h
      cases b with
      | nil => rfl
      | cons y ys =>
          simp [compareUint8Arrays] at h
          omega
  | cons x xs ih =>
      intro b h
      cases b with
      | nil =>
          simp [compareUint8Arrays] at h
          omega
      | cons y ys =>
          by_cases hxy : x < y
          · simp [compareUint8Arrays, hxy] at h
          · by_cases hyx : y < x
            · simp [compareUint8Arrays, hxy, hyx] at h
            · have hx : x = y := by omega
              simp [compareUint8Arrays, hxy, hyx] at h
              rw [hx, ih ys h]

/-- The ordered concatenation `smaller ++ larger` selected by the code
(crypto.js line 70) does not depend on the argument order. -/
theorem orderedConcat_symm (a b : Bytes) :
    (if compareUint8Arrays a b ≤ 0 then concatUint8 a b else concatUint8 b a)
      = (if compareUint8Arrays b a ≤ 0 then concatUint8 b a else concatUint8 a b) := by
  have hanti := compareUint8Arrays_antisymm a b
  by_cases h1 : compareUint8Arrays a b ≤ 0
  · by_cases h2 : compareUint8Arrays b a ≤ 0
    · have hz : compareUint8Arrays a b = 0 := by omega
      rw [compareUint8Arrays_eq_zero a b hz]
    · simp [h1, h2]
  · have h2 : compareUint8Arrays b a ≤ 0 := by omega
    simp [h1, h2]

/-! ### The Web Crypto platform model

Fields are the `crypto.subtle` primitives (plus `TextEncoder` /
`TextDecoder`) exactly as the repository calls them.  `PrivKey`, `PubKey`
and `AesKey` are the opaque `CryptoKey` handle types. -/

structure WebCrypto (PrivKey PubKey AesKey : Type) where
  /-- `crypto.subtle.deriveBits({name:"ECDH", public}, private, 256)`. -/
  deriveBitsECDH : PrivKey → PubKey → Bytes
  /-- `crypto.subtle.digest("SHA-256", data)`. -/
  sha256 : Bytes → Bytes
  /-- `importKey("raw", ikm, "HKDF", ...)` then
  `deriveKey({name:"HKDF", hash:"SHA-256", salt, info}, ..., {name:"AES-GCM", length:256}, ...)`. -/
  hkdfDeriveAesKey : (ikm : Bytes) → (salt : Bytes) → (info : Bytes) → AesKey
  /-- Importing raw bytes as an AES key; `deriveKey` with an ECDH algorithm
  and an AES-GCM derived-key type is specified as importing the raw ECDH
  bits, i.e. `importAesKeyRaw ∘ deriveBitsECDH`. -/
  importAesKeyRaw : Bytes → AesKey
  /-- `crypto.subtle.encrypt({name:"AES-GCM", iv, additionalData?, tagLength:128}, key, pt)`:
  ciphertext with the 128-bit tag bundled. -/
  aesGcmEncrypt : AesKey → (iv : Bytes) → (pt : Bytes) → (aad : Option Bytes) → Bytes
  /-- `crypto.subtle.decrypt(...)`; `none` models the thrown `OperationError`
  when the authentication tag does not verify. -/
  aesGcmDecrypt : AesKey → (iv : Bytes) → (ct : Bytes) → (aad : Option Bytes) → Option Bytes
  /-- `new TextEncoder().encode`. -/
  utf8Encode : String → Bytes
  /-- `new TextDecoder().decode`. -/
  utf8Decode : Bytes → String

/-! ### crypto.js — key derivation and AEAD wrappers -/

/-- crypto.js lines 59–93, `deriveAesKeyFromECDH`: ECDH shared bits, a
deterministic SHA-256 salt over both raw public keys in byte-lexicographic
order, then HKDF-SHA256 to an AES-GCM(256) key with the fixed context
label `"CipherChat AES-GCM key"`. -/
def deriveAesKeyFromECDH {P U K : Type} (S : WebCrypto P U K)
    (myPrivate : P) (peerPublic : U) (myPubRaw peerPubRaw : Bytes) : K :=
  let sharedBits := S.deriveBitsECDH myPrivate peerPublic
  let a := myPubRaw
  let b := peerPubRaw
  let concat :=
    if compareUint8Arrays a b ≤ 0 then concatUint8 a b else concatUint8 b a
  let salt := S.sha256 concat
  S.hkdfDeriveAesKey sharedBits salt (S.utf8Encode "CipherChat AES-GCM key")

/-- The salt computation inlined at crypto.js lines 67–71, under the name
the specification gives it (`computeAgreementSalt`): SHA-256 of the
byte-lexicographically smaller public key followed by the larger one. -/
def computeAgreementSalt {P U K : Type} (S : WebCrypto P U K) (x y : Bytes) : Bytes :=
  S.sha256 (if compareUint8Arrays x y ≤ 0 then concatUint8 x y else concatUint8 y x)

/-- Modelled from the spec: `deriveSessionKey(sharedSecret, salt,
contextLabel)` is the extract-then-expand key-derivation function over the
shared secret, with the given salt and context label bound into the
output.  Used to state the refinement of the code's derivations. -/
def deriveSessionKeySpec {P U K : Type} (S : WebCrypto P U K)
    (sharedSecret salt contextLabel : Bytes) : K :=
  S.hkdfDeriveAesKey sharedSecret salt contextLabel

/-- script.js lines 35–43, `deriveAESGCMKey`: `crypto.subtle.deriveKey`
straight from the ECDH algorithm to an AES-GCM(256) key — the raw ECDH
output imported as the symmetric key, with no KDF, salt or label. -/
def deriveAESGCMKey {P U K : Type} (S : WebCrypto P U K) (priv : P) (pub : U) : K :=
  S.importAesKeyRaw (S.deriveBitsECDH priv pub)

/-- The second script variant's `deriveAES(priv, pub)` — the same direct
`deriveKey({name:"ECDH", public:pub}, priv, {name:"AES-GCM", length:256})`
call as `deriveAESGCMKey`. -/
def deriveAES {P U K : Type} (S : WebCrypto P U K) (priv : P) (pub : U) : K :=
  S.importAesKeyRaw (S.deriveBitsECDH priv pub)

/-- The client glue's `deriveSharedKeyIfReady` derivation core: identical
to `deriveAesKeyFromECDH` except for the context label
`"ECDH AES-GCM key"`. -/
def deriveSharedKeyCore {P U K : Type} (S : WebCrypto P U K)
    (myPriv : P) (peerPub : U) (myPubRaw peerPubRaw : Bytes) : K :=
  let sharedBits := S.deriveBitsECDH myPriv peerPub
  let a := myPubRaw
  let b := peerPubRaw
  let abConcat :=
    if compareUint8Arrays a b ≤ 0 then concatUint8 a b else concatUint8 b a
  let saltBuf := S.sha256 abConcat
  S.hkdfDeriveAesKey sharedBits saltBuf (S.utf8Encode "ECDH AES-GCM key")

/-- The `if (aad) algo.additionalData = encoder.encode(aad)` guard shared
by `encryptAesGcmBase64` and `decryptAesGcmBase64`: JavaScript treats the
empty string as falsy, so only a non-empty `aad` is authenticated. -/
def aadBytes {P U K : Type} (S : WebCrypto P U K) : Option String → Option Bytes
  | none => none
  | some s => if s = "" then none else some (S.utf8Encode s)

/-- The `{iv, ct}` object returned by `encryptAesGcmBase64`. -/
structure EncResult where
  iv : List Char
  ct : List Char

/-- crypto.js lines 100–115, `encryptAesGcmBase64`: AES-GCM with a 96-bit
IV and 128-bit tag; returns the IV and ciphertext base64-encoded.  The
random IV drawn by `crypto.getRandomValues(new Uint8Array(12))` is the
explicit `iv` argument. -/
def encryptAesGcmBase64 {P U K : Type} (S : WebCrypto P U K)
    (aesKey : K) (plaintext : String) (aad : Option String) (iv : Bytes) : EncResult :=
  let ctBuf := S.aesGcmEncrypt aesKey iv (S.utf8Encode plaintext) (aadBytes S aad)
  { iv := arrayBufferToBase64 iv, ct := arrayBufferToBase64 ctBuf }

/-- crypto.js lines 118–131, `decryptAesGcmBase64`: decode the base64
inputs, AES-GCM decrypt, UTF-8 decode the plaintext; a thrown
authentication failure is `none`. -/
def decryptAesGcmBase64 {P U K : Type} (S : WebCrypto P U K)
    (aesKey : K) (ivB64 ctB64 : List Char) (aad : Option String) : Option String :=
  let iv := base64ToArrayBuffer ivB64
  let ct := base64ToArrayBuffer ctB64
  (S.aesGcmDecrypt aesKey iv ct (aadBytes S aad)).map S.utf8Decode

/-! ### Relay servers

The repository contains several WebSocket relay implementations:
`server/server.js` (JSON-parse, require a truthy `type` field, broadcast to
every other client whose `readyState` is OPEN), an unnamed variant that
additionally injects a timestamp into envelopes lacking one and does not
require a `type` field (`relay1Step`), and a minimal variant with neither
check nor timestamp (`relay2Step`).

A handler is a pure function of the registered connections, the sending
connection and the parsed message; it returns the list of `(recipient,
envelope)` sends it performs and the connection registry it leaves behind
(none of the handlers closes or drops a connection).  `JSON.parse` failure
— and, for `relay1Step`, a non-object parse result — is the `none` case of
the parsed message. -/

/-- A wire envelope as the relays see it: the optional `type`, `from`,
`target` and `timestamp` fields they inspect, and the rest of the JSON
object opaque in `body`. -/
structure Env where
  type : Option String
  fromId : Option String
  target : Option String
  timestamp : Option String
  body : String
deriving DecidableEq

/-- A relay connection: an identity and its `readyState === OPEN` flag. -/
structure Conn where
  id : Nat
  isOpen : Bool
deriving DecidableEq

/-- JavaScript truthiness of an optional string field: absent and `""` are
falsy. -/
def jsTruthy : Option String → Bool
  | none => false
  | some s => !(s == "")

/-- The broadcast loop shared verbatim by all three relays:
`wss.clients.forEach(c => { if (c !== ws && c.readyState === OPEN) c.send(...) })`. -/
def broadcastExceptSender (clients : List Conn) (sender : Nat) (e : Env) :
    List (Nat × Env) :=
  clients.filterMap fun c =>
    if c.id ≠ sender ∧ c.isOpen = true then some (c.id, e) else none

/-- server/server.js lines 15–38: parse, require a truthy `type`, broadcast
to the others.  (The file contains two near-identical copies of this
handler; they have the same semantics.) -/
def serverRelayStep (clients : List Conn) (sender : Nat) (parsed : Option Env) :
    List (Nat × Env) × List Conn :=
  match parsed with
  | none => ([], clients)
  | some obj =>
      if jsTruthy obj.type = false then ([], clients)
      else (broadcastExceptSender clients sender obj, clients)

/-- The unnamed relay variant with timestamp injection: on a parsed object
envelope, set `timestamp` to the current time if it is falsy, then
broadcast to the others; there is no `type` check. -/
def relay1Step (clients : List Conn) (sender : Nat) (parsed : Option Env)
    (now : String) : List (Nat × Env) × List Conn :=
  match parsed with
  | none => ([], clients)
  | some data0 =>
      let data := if jsTruthy data0.timestamp = true then data0
                  else { data0 with timestamp := some now }
      (broadcastExceptSender clients sender data, clients)

/-- The minimal unnamed relay variant: parse and broadcast, nothing else. -/
def relay2Step (clients : List Conn) (sender : Nat) (parsed : Option Env) :
    List (Nat × Env) × List Conn :=
  match parsed with
  | none => ([], clients)
  | some data => (broadcastExceptSender clients sender data, clients)

/-! ### Broadcast lemmas -/

theorem mem_broadcastExceptSender {clients : List Conn} {sender : Nat} {e : Env}
    {c : Conn} (hc : c ∈ clients) (hid : c.id ≠ sender) (hopen : c.isOpen = true) :
    (c.id, e) ∈ broadcastExceptSender clients sender e := by
  unfold broadcastExceptSender
  exact List.mem_filterMap.mpr ⟨c, hc, by simp [hid, hopen]⟩

theorem broadcastExceptSender_spec {clients : List Conn} {sender : Nat} {e : Env}
    {p : Nat × Env} (hp : p ∈ broadcastExceptSender clients sender e) :
    p.1 ≠ sender ∧ p.2 = e := by
  unfold broadcastExceptSender at hp
  rcases List.mem_filterMap.mp hp with ⟨c, _, hc⟩
  by_cases h : c.id ≠ sender ∧ c.isOpen = true
  · rw [if_pos h] at hc
    have := Option.some.inj hc
    subst this
    exact ⟨h.1, rfl⟩
  · rw [if_neg h] at hc
    exact absurd hc (by simp)

theorem broadcastExceptSender_map_fst (clients : List Conn) (sender : Nat)
    (e e' : Env) :
    (broadcastExceptSender clients sender e).map Prod.fst
      = (broadcastExceptSender clients sender e').map Prod.fst := by
  unfold broadcastExceptSender
  induction clients with
  | nil => rfl
  | cons c cs ih =>
      by_cases h : c.id ≠ sender ∧ c.isOpen = true
      · simp only [List.filterMap_cons, if_pos h, List.map_cons]
        rw [ih]
      · simp only [List.filterMap_cons, if_neg h]
        exact ih

/-! ### On-chain key registry (identity.sol + blockchain/keyregistry.js)

`identity.sol` stores `keccak256(pubKey)` as the fingerprint for
`msg.sender` in `registerKey` and returns it from `getKey` (a Solidity
mapping defaults to `bytes32(0)`).  `keyregistry.js` `verifyOnChainKey`
fetches that fingerprint, rejects `ethers.ZeroHash`, hashes the received
public key locally with **SHA-256** via `crypto.subtle.digest`, renders
both as lowercase `0x`-prefixed hex and compares.  The two hash functions
are external primitives, modelled as the fields of `ChainHashes`; they are
different functions (`keccak256 ≠ SHA-256` on essentially every input,
e.g. the empty string already separates them). -/

structure ChainHashes where
  keccak256 : Bytes → Bytes
  sha256d : Bytes → Bytes

/-- `bytes32(0)`, i.e. `ethers.ZeroHash`. -/
def zeroHash : Bytes := List.replicate 32 0

/-- The contract's storage: address to stored fingerprint (the `updatedAt`
field is not read by any client code and is omitted). -/
abbrev Registry := String → Bytes

def emptyRegistry : Registry := fun _ => zeroHash

/-- identity.sol `registerKey`: store `keccak256(pubKey)` for the sender. -/
def registerKey (H : ChainHashes) (reg : Registry) (sender : String)
    (pubKey : Bytes) : Registry :=
  fun a => if a = sender then H.keccak256 pubKey else reg a

/-- identity.sol `getKey`: the stored fingerprint (zero when absent). -/
def getKey (reg : Registry) (user : String) : Bytes := reg user

/-- One lowercase hex digit. -/
def hexDigit (n : Nat) : Char :=
  if n < 10 then Char.ofNat (48 + n) else Char.ofNat (87 + n)

/-- `"0x" + bytes.map(b => b.toString(16).padStart(2, "0")).join("")`,
already lowercase (so `toLowerCase()` is the identity on it). -/
def hexString (b : Bytes) : List Char :=
  '0' :: 'x' :: (b.flatMap fun x => [hexDigit (x / 16), hexDigit (x % 16)])

/-- keyregistry.js lines 48–73, `verifyOnChainKey`: fetch the on-chain
fingerprint for the address, return `false` when it is `ZeroHash`,
otherwise compare its hex rendering with the hex rendering of the local
SHA-256 hash of the base64-decoded public key. -/
def verifyOnChainKey (H : ChainHashes) (reg : Registry) (pubKeyB64 : List Char)
    (userAddress : String) : Bool :=
  let fingerprintOnChain := getKey reg userAddress
  if fingerprintOnChain = zeroHash then false
  else
    let raw := base64ToArrayBuffer pubKeyB64
    let localHash := H.sha256d raw
    hexString fingerprintOnChain = hexString localHash

/-! ### Concrete platform instances for witnesses

Tiny executable stand-ins for the external crypto primitives, used only to
instantiate the platform-parametric theorems on concrete inputs.  The
arithmetic has no cryptographic meaning; what matters is that each
instance satisfies, at the chosen inputs, exactly the platform guarantees
the theorems assume. -/

def demoCrypto : WebCrypto Nat Nat Bytes where
  deriveBitsECDH p u := [p * u % 256]
  sha256 b := 0 :: b
  hkdfDeriveAesKey ikm salt info := 1 :: (ikm ++ salt ++ info)
  importAesKeyRaw b := b
  aesGcmEncrypt _ _ pt _ := pt ++ [7]
  aesGcmDecrypt _ _ ct _ :=
    match ct.reverse with
    | 7 :: r => some r.reverse
    | _ => none
  utf8Encode s := s.toList.map Char.toNat
  utf8Decode b := String.mk (b.map Char.ofNat)

/-- Hash stand-ins with `keccak256 ≠ SHA-256`, as in reality. -/
def demoChainHashes : ChainHashes where
  keccak256 b := List.replicate 31 0 ++ [(b.sum + 1) % 256]
  sha256d b := List.replicate 31 0 ++ [(b.sum + 2) % 256]

/-- A counterfactual hash pair in which the contract and the client used
the same hash function, to show the comparison logic itself is sound. -/
def matchedChainHashes : ChainHashes where
  keccak256 b := List.replicate 31 0 ++ [(b.sum + 1) % 256]
  sha256d b := List.replicate 31 0 ++ [(b.sum + 1) % 256]

/-! ## Claim theorems -/

/-- Claim C10: decoding the base64 encoding of any finite byte sequence
returns exactly the original bytes —
`base64ToArrayBuffer(arrayBufferToBase64(b))` has the same length and
bytes as `b`. -/
theorem claim_base64_roundtrip (b : Bytes) (h : ValidBytes b) :
    base64ToArrayBuffer (arrayBufferToBase64 b) = b :=
  base64_decode_encode h

theorem claim_base64_roundtrip_witness :
    base64ToArrayBuffer (arrayBufferToBase64 [0, 77, 255, 1, 128]) = [0, 77, 255, 1, 128] :=
  claim_base64_roundtrip [0, 77, 255, 1, 128] (by decide)

/-- Claim C3: the agreement salt computed from two public-key byte strings
does not depend on their order — it hashes the byte-lexicographically
smaller key followed by the larger one. -/
theorem claim_salt_order_independence {P U K : Type} (S : WebCrypto P U K)
    (X Y : Bytes) :
    computeAgreementSalt S X Y = computeAgreementSalt S Y X := by
  unfold computeAgreementSalt
  rw [orderedConcat_symm X Y]

/-- Claim C2: the session-key derivation is symmetric — given the
platform's ECDH agreement (the shared bits computed from a's private key
and b's public key equal those from b's private key and a's public key),
`deriveAesKeyFromECDH(a.priv, b.pub, a.raw, b.raw)` equals
`deriveAesKeyFromECDH(b.priv, a.pub, b.raw, a.raw)`, and likewise for the
client glue's `deriveSharedKeyIfReady` derivation. -/
theorem claim_session_key_symmetric {P U K : Type} (S : WebCrypto P U K)
    (aPriv bPriv : P) (aPub bPub : U) (aRaw bRaw : Bytes)
    (hecdh : S.deriveBitsECDH aPriv bPub = S.deriveBitsECDH bPriv aPub) :
    deriveAesKeyFromECDH S aPriv bPub aRaw bRaw
      = deriveAesKeyFromECDH S bPriv aPub bRaw aRaw
    ∧ deriveSharedKeyCore S aPriv bPub aRaw bRaw
      = deriveSharedKeyCore S bPriv aPub bRaw aRaw := by
  constructor
  · simp only [deriveAesKeyFromECDH]
    rw [hecdh, orderedConcat_symm aRaw bRaw]
  · simp only [deriveSharedKeyCore]
    rw [hecdh, orderedConcat_symm aRaw bRaw]

theorem claim_session_key_symmetric_witness :
    deriveAesKeyFromECDH demoCrypto 2 6 [1] [2]
      = deriveAesKeyFromECDH demoCrypto 3 4 [2] [1]
    ∧ deriveSharedKeyCore demoCrypto 2 6 [1] [2]
      = deriveSharedKeyCore demoCrypto 3 4 [2] [1] :=
  claim_session_key_symmetric demoCrypto 2 3 4 6 [1] [2] (by decide)

/-- Claim C4 (amended): the core derivations — `deriveAesKeyFromECDH` in
crypto.js and the client glue's derivation — produce the 256-bit key by
HKDF (extract-then-expand) over the ECDH shared secret, salted with the
deterministic agreement salt, with a fixed context label bound in
(`"CipherChat AES-GCM key"`, respectively `"ECDH AES-GCM key"`).  The
claim's universal form fails: see the counterexample for the `script.js`
derivations. -/
theorem claim_core_derivation_is_hkdf {P U K : Type} (S : WebCrypto P U K)
    (p : P) (u : U) (a b : Bytes) :
    deriveAesKeyFromECDH S p u a b
      = deriveSessionKeySpec S (S.deriveBitsECDH p u)
          (computeAgreementSalt S a b) (S.utf8Encode "CipherChat AES-GCM key")
    ∧ deriveSharedKeyCore S p u a b
      = deriveSessionKeySpec S (S.deriveBitsECDH p u)
          (computeAgreementSalt S a b) (S.utf8Encode "ECDH AES-GCM key") :=
  ⟨rfl, rfl⟩

/-- Claim C4 counterexample: `deriveAESGCMKey` and `deriveAES` in
`script.js` use the raw ECDH output directly as the AES-GCM key — they
equal importing the raw shared bits, and differ from the HKDF-based
`deriveSessionKey` of the specification — so not **every** session-key
derivation in the code is an HKDF. -/
theorem claim_every_derivation_hkdf_counterexample :
    deriveAESGCMKey demoCrypto 3 5
      = demoCrypto.importAesKeyRaw (demoCrypto.deriveBitsECDH 3 5)
    ∧ deriveAES demoCrypto 3 5
      = demoCrypto.importAesKeyRaw (demoCrypto.deriveBitsECDH 3 5)
    ∧ deriveAESGCMKey demoCrypto 3 5
      ≠ deriveSessionKeySpec demoCrypto (demoCrypto.deriveBitsECDH 3 5)
          (computeAgreementSalt demoCrypto [1] [2])
          (demoCrypto.utf8Encode "CipherChat AES-GCM key") := by
  refine ⟨rfl, rfl, ?_⟩
  decide

/-- Claim C1: for every session key `K` and plaintext string `M`,
decrypting the `{iv, ct}` pair produced by `encryptAesGcmBase64(K, M)`
under the same key (no associated data in either call) returns exactly
`M`.  The hypotheses are the platform guarantees the code relies on at
this call: the drawn IV is a byte buffer, AES-GCM ciphertexts are byte
buffers, AES-GCM decryption inverts encryption under the same key, IV and
associated data, and UTF-8 decoding inverts encoding. -/
theorem claim_encrypt_decrypt_roundtrip {P U K : Type} (S : WebCrypto P U K)
    (k : K) (m : String) (iv : Bytes)
    (hiv : ValidBytes iv)
    (hct : ValidBytes (S.aesGcmEncrypt k iv (S.utf8Encode m) none))
    (hgcm : S.aesGcmDecrypt k iv (S.aesGcmEncrypt k iv (S.utf8Encode m) none) none
      = some (S.utf8Encode m))
    (hutf : S.utf8Decode (S.utf8Encode m) = m) :
    decryptAesGcmBase64 S k (encryptAesGcmBase64 S k m none iv).iv
      (encryptAesGcmBase64 S k m none iv).ct none = some m := by
  simp only [encryptAesGcmBase64, decryptAesGcmBase64, aadBytes]
  rw [base64_decode_encode hiv, base64_decode_encode hct, hgcm]
  simp [hutf]

theorem claim_encrypt_decrypt_roundtrip_witness :
    decryptAesGcmBase64 demoCrypto [9] (encryptAesGcmBase64 demoCrypto [9] "ab" none [1, 2]).iv
      (encryptAesGcmBase64 demoCrypto [9] "ab" none [1, 2]).ct none = some "ab" :=
  claim_encrypt_decrypt_roundtrip demoCrypto [9] "ab" [1, 2]
    (by decide) (by decide) (by decide) (by decide)

/-- Claim C5: whenever the authentication tag does not verify — the
(decoded) ciphertext is not the AES-GCM encryption of any plaintext under
this key, IV and associated data — `decryptAesGcmBase64` returns no
plaintext at all (`none`, the thrown `AuthenticationError`), never a
partial or altered plaintext.  `hsound` is the platform guarantee that
AES-GCM decryption succeeds only on genuine ciphertexts; all-or-nothing
is structural (an `Option` result carries no partial payload). -/
theorem claim_decrypt_tamper_rejected {P U K : Type} (S : WebCrypto P U K)
    (k : K) (iv ct : Bytes) (aad : Option String)
    (hiv : ValidBytes iv) (hct : ValidBytes ct)
    (hsound : ∀ pt, S.aesGcmDecrypt k iv ct (aadBytes S aad) = some pt →
      ct = S.aesGcmEncrypt k iv pt (aadBytes S aad))
    (htamper : ∀ pt, ct ≠ S.aesGcmEncrypt k iv pt (aadBytes S aad)) :
    decryptAesGcmBase64 S k (arrayBufferToBase64 iv) (arrayBufferToBase64 ct) aad
      = none := by
  simp only [decryptAesGcmBase64]
  rw [base64_decode_encode hiv, base64_decode_encode hct]
  cases hdec : S.aesGcmDecrypt k iv ct (aadBytes S aad) with
  | none => rfl
  | some pt => exact absurd (hsound pt hdec) (htamper pt)

theorem claim_decrypt_tamper_rejected_witness :
    decryptAesGcmBase64 demoCrypto [9] (arrayBufferToBase64 [1])
      (arrayBufferToBase64 [5, 6]) none = none :=
  claim_decrypt_tamper_rejected demoCrypto [9] [1] [5, 6] none
    (by decide) (by decide)
    (fun pt h => by simp [demoCrypto, aadBytes] at h)
    (fun pt h => by
      have hlast := congrArg List.getLast? h
      simp [demoCrypto, aadBytes] at hlast)

/-- A parseable envelope with a `cipher` kind, a target and no timestamp,
used to instantiate the relay theorems. -/
def envCipher : Env :=
  { type := some "cipher", fromId := some "left", target := some "right",
    timestamp := none, body := "ciphertext" }

/-- A parseable JSON object with no kind discriminant at all. -/
def envNoKind : Env :=
  { type := none, fromId := none, target := none, timestamp := none,
    body := "hello" }

/-- Claim C6: for every parseable envelope (one carrying a kind
discriminant, per the data model) received from connection `sender`, the
relay broadcasts it to every other registered open connection, never to
the sender itself, and the recipient set does not depend on the
envelope's `target`/`from` fields — any other well-kinded envelope
reaches exactly the same recipients.  Stated for `server/server.js` and
for the minimal unnamed relay variant. -/
theorem claim_relay_fanout (clients : List Conn) (sender : Nat) (e : Env)
    (htype : jsTruthy e.type = true) :
    (∀ c ∈ clients, c.id ≠ sender → c.isOpen = true →
        (c.id, e) ∈ (serverRelayStep clients sender (some e)).1)
    ∧ (∀ p ∈ (serverRelayStep clients sender (some e)).1, p.1 ≠ sender ∧ p.2 = e)
    ∧ (∀ e' : Env, jsTruthy e'.type = true →
        (serverRelayStep clients sender (some e')).1.map Prod.fst
          = (serverRelayStep clients sender (some e)).1.map Prod.fst)
    ∧ (∀ c ∈ clients, c.id ≠ sender → c.isOpen = true →
        (c.id, e) ∈ (relay2Step clients sender (some e)).1)
    ∧ (∀ p ∈ (relay2Step clients sender (some e)).1, p.1 ≠ sender ∧ p.2 = e) := by
  have hstep : (serverRelayStep clients sender (some e)).1
      = broadcastExceptSender clients sender e := by
    simp [serverRelayStep, htype]
  have hstep2 : (relay2Step clients sender (some e)).1
      = broadcastExceptSender clients sender e := rfl
  refine ⟨?_, ?_, ?_, ?_, ?_⟩
  · intro c hc hid hopen
    rw [hstep]
    exact mem_broadcastExceptSender hc hid hopen
  · intro p hp
    rw [hstep] at hp
    exact broadcastExceptSender_spec hp
  · intro e' htype'
    have hstep' : (serverRelayStep clients sender (some e')).1
        = broadcastExceptSender clients sender e' := by
      simp [serverRelayStep, htype']
    rw [hstep, hstep']
    exact broadcastExceptSender_map_fst clients sender e' e
  · intro c hc hid hopen
    rw [hstep2]
    exact mem_broadcastExceptSender hc hid hopen
  · intro p hp
    rw [hstep2] at hp
    exact broadcastExceptSender_spec hp

theorem claim_relay_fanout_witness :
    ((2 : Nat), envCipher) ∈ (serverRelayStep [⟨1, true⟩, ⟨2, true⟩] 1 (some envCipher)).1 :=
  (claim_relay_fanout [⟨1, true⟩, ⟨2, true⟩] 1 envCipher (by decide)).1
    ⟨2, true⟩ (by decide) (by decide) (by decide)

/-- Claim C7 (amended): on a message that fails to parse, every relay
sends nothing and leaves the connection registry unchanged; the
`server/server.js` relay additionally discards parseable envelopes whose
kind discriminant is missing or empty.  The claim's universal form fails
for the timestamp-injecting unnamed relay variant, which broadcasts
parseable envelopes even without a kind — see the counterexample. -/
theorem claim_relay_discard_silent (clients : List Conn) (sender : Nat) (e : Env)
    (hk : jsTruthy e.type = false) :
    serverRelayStep clients sender none = ([], clients)
    ∧ serverRelayStep clients sender (some e) = ([], clients)
    ∧ (∀ now, relay1Step clients sender none now = ([], clients))
    ∧ relay2Step clients sender none = ([], clients) := by
  refine ⟨rfl, ?_, fun _ => rfl, rfl⟩
  simp [serverRelayStep, hk]

theorem claim_relay_discard_silent_witness :
    serverRelayStep [⟨1, true⟩, ⟨2, true⟩] 1 none = ([], [⟨1, true⟩, ⟨2, true⟩])
    ∧ serverRelayStep [⟨1, true⟩, ⟨2, true⟩] 1 (some envNoKind)
        = ([], [⟨1, true⟩, ⟨2, true⟩])
    ∧ relay1Step [⟨1, true⟩, ⟨2, true⟩] 1 none "T0" = ([], [⟨1, true⟩, ⟨2, true⟩])
    ∧ relay2Step [⟨1, true⟩, ⟨2, true⟩] 1 none = ([], [⟨1, true⟩, ⟨2, true⟩]) :=
  have h := claim_relay_discard_silent [⟨1, true⟩, ⟨2, true⟩] 1 envNoKind (by decide)
  ⟨h.1, h.2.1, h.2.2.1 "T0", h.2.2.2⟩

/-- Claim C7 counterexample: the timestamp-injecting relay variant
broadcasts a parseable envelope that lacks any kind discriminant — the
relay does **not** send nothing on such input. -/
theorem claim_relay_discard_silent_counterexample :
    (relay1Step [⟨1, true⟩, ⟨2, true⟩] 1 (some envNoKind) "2024-01-01T00:00:00.000Z").1
      = [(2, { envNoKind with timestamp := some "2024-01-01T00:00:00.000Z" })] := by
  decide

/-- Claim C8 (amended): the timestamp-injecting unnamed relay variant
stamps every broadcast copy — an envelope with a falsy timestamp is
relayed with the relay's current time and an envelope that already has a
timestamp passes through unchanged; the `server/server.js` relay, by
contrast, relays the parsed envelope exactly as it is and adds no
timestamp (see the counterexample for the claim's universal form). -/
theorem claim_relay_timestamp (clients : List Conn) (sender : Nat) (e : Env)
    (now : String) :
    (∀ p ∈ (relay1Step clients sender (some e) now).1,
        p.2.timestamp = (if jsTruthy e.timestamp = true then e.timestamp else some now)
        ∧ (jsTruthy e.timestamp = true → p.2 = e))
    ∧ (jsTruthy e.type = true →
        ∀ p ∈ (serverRelayStep clients sender (some e)).1, p.2 = e) := by
  constructor
  · intro p hp
    by_cases ht : jsTruthy e.timestamp = true
    · have hstep : (relay1Step clients sender (some e) now).1
          = broadcastExceptSender clients sender e := by
        simp [relay1Step, ht]
      rw [hstep] at hp
      rw [if_pos ht, (broadcastExceptSender_spec hp).2]
      exact ⟨rfl, fun _ => rfl⟩
    · have hstep : (relay1Step clients sender (some e) now).1
          = broadcastExceptSender clients sender { e with timestamp := some now } := by
        simp [relay1Step, ht]
      rw [hstep] at hp
      rw [if_neg ht, (broadcastExceptSender_spec hp).2]
      exact ⟨rfl, fun hcontra => absurd hcontra ht⟩
  · intro htype p hp
    have hstep : (serverRelayStep clients sender (some e)).1
        = broadcastExceptSender clients sender e := by
      simp [serverRelayStep, htype]
    rw [hstep] at hp
    exact (broadcastExceptSender_spec hp).2

theorem claim_relay_timestamp_witness :
    ((2 : Nat), ({ envCipher with timestamp := some "T0" } : Env)).2.timestamp
        = (if jsTruthy envCipher.timestamp = true then envCipher.timestamp else some "T0")
    ∧ (jsTruthy envCipher.timestamp = true →
        ((2 : Nat), ({ envCipher with timestamp := some "T0" } : Env)).2 = envCipher) :=
  (claim_relay_timestamp [⟨1, true⟩, ⟨2, true⟩] 1 envCipher "T0").1
    (2, { envCipher with timestamp := some "T0" }) (by decide)

/-- Claim C8 counterexample: the `server/server.js` relay broadcasts an
envelope that has no timestamp field without adding one — the relayed
copy carries no timestamp. -/
theorem claim_relay_timestamp_counterexample :
    (serverRelayStep [⟨1, true⟩, ⟨2, true⟩] 1 (some envCipher)).1 = [(2, envCipher)]
    ∧ envCipher.timestamp = none := by
  decide

/-- Claim C9: the code contradicts the claim (and its own documentation).
`registerKey` stores `keccak256(pubKey)` as the on-chain fingerprint, but
`verifyOnChainKey` hashes the received public key with SHA-256 before
comparing, so a correctly registered key is rejected (first conjunct;
the stand-in hash pair differs on the input, as the real `keccak256` and
SHA-256 do on essentially every input).  Had both sides used the same
hash — the counterfactual `matchedChainHashes` — the comparison logic
would accept the registered key (second conjunct), and an unregistered
address is rejected via the `ZeroHash` guard (third conjunct). -/
theorem claim_registry_check_rejects_registered_key :
    verifyOnChainKey demoChainHashes
        (registerKey demoChainHashes emptyRegistry "0xA" [4, 1, 2])
        (arrayBufferToBase64 [4, 1, 2]) "0xA" = false
    ∧ verifyOnChainKey matchedChainHashes
        (registerKey matchedChainHashes emptyRegistry "0xA" [4, 1, 2])
        (arrayBufferToBase64 [4, 1, 2]) "0xA" = true
    ∧ verifyOnChainKey demoChainHashes emptyRegistry
        (arrayBufferToBase64 [4, 1, 2]) "0xA" = false := by
  decide
